import Mathlib

/-!
Verification of the layover-planner core (abdullah270602/layover_ai_agent).

The defs below are a shallow embedding of the Python sources:
  app/services/layover_planner.py  (time budget, radius, candidate ranking)
  app/services/maps_service.py    (dedupe, travel-time annotation)
  app/services/llm_client.py      (generate-and-validate)
  app/schemas/itinerary.py        (LayoverPlan data model)
Machine arithmetic notes: the Python code uses IEEE doubles for
`layover_minutes / 60.0`, `usable * 0.45` and `40 * (m / 60.0) * 1000`.
On every value these expressions are compared or truncated at in the
program (layover minutes, usable minutes and one-way minutes of real
flight windows, far below 2^40), double rounding never crosses an
integer or comparison boundary, so they are embedded as exact rational
arithmetic.
-/

namespace Layover

/-- Truncation toward zero of a rational number, the behaviour of Python's
`int(...)` applied to a float. -/
def pyInt (q : ℚ) : ℤ := if 0 ≤ q then ⌊q⌋ else ⌈q⌉

/-- Usable excursion minutes, `max(0, layover_minutes - leave_buffer - return_buffer)`
from `LayoverPlanner._allowed_one_way_minutes` (layover_planner.py line 35). -/
def usableMinutes (leave ret L : ℤ) : ℤ := max 0 (L - leave - ret)

/-- The hour-bucket chain of `LayoverPlanner._allowed_one_way_minutes`
(layover_planner.py lines 34, 37-50): `total_hours = layover_minutes / 60.0`
followed by strict `<` comparisons against 3, 5, 7, 9, 12, 14. -/
def bucketOf (L : ℤ) : ℤ :=
  let total_hours : ℚ := (L : ℚ) / 60
  if total_hours < 3 then 10
  else if total_hours < 5 then 20
  else if total_hours < 7 then 35
  else if total_hours < 9 then 55
  else if total_hours < 12 then 70
  else if total_hours < 14 then 90
  else 115

/-- `LayoverPlanner._allowed_one_way_minutes` (layover_planner.py lines 33-55).
`hard_cap = int(usable * 0.45)`; the Python float literal 0.45 is embedded as
the exact rational 45/100 (see the float note in the file header). -/
def allowed_one_way_minutes (leave ret L : ℤ) : ℤ :=
  let usable := usableMinutes leave ret L
  let bucket := bucketOf L
  let hard_cap := pyInt ((usable : ℚ) * (45 / 100))
  if hard_cap ≤ 0 then 0 else max 10 (min bucket hard_cap)

/-- `LayoverPlanner._radius_from_one_way` (layover_planner.py lines 57-60):
`meters = int(avg_kmh * (one_way_min / 60.0) * 1000)` then
`max(3000, min(50000, meters))`. -/
def radius_from_one_way (avg_kmh one_way_min : ℤ) : ℤ :=
  let meters := pyInt ((avg_kmh : ℚ) * ((one_way_min : ℚ) / 60) * 1000)
  max 3000 (min 50000 meters)

/-! Claim-side restatements of the spec's arithmetic (integer-only forms of the
step table, the 45% hard cap and the radius formula), used to compare the
source functions against the spec's words. -/

/-- Spec-side step table: bucket keyed on layover hours with exclusive upper
bounds, written with integer thresholds (3h = 180 min, and so on). -/
def bucketSpec (L : ℤ) : ℤ :=
  if L < 180 then 10
  else if L < 300 then 20
  else if L < 420 then 35
  else if L < 540 then 55
  else if L < 720 then 70
  else if L < 840 then 90
  else 115

/-- Spec-side hard cap: `floor(usable * 0.45)` as integer division. -/
def hardCapSpec (leave ret L : ℤ) : ℤ := usableMinutes leave ret L * 45 / 100

/-- Spec-side allowance: 0 when the hard cap is non-positive, otherwise
`max(10, min(bucket, hardCap))`. -/
def allowanceSpec (leave ret L : ℤ) : ℤ :=
  if hardCapSpec leave ret L ≤ 0 then 0
  else max 10 (min (bucketSpec L) (hardCapSpec leave ret L))

/-- Spec-side radius: `int(40 * (m / 60) * 1000)` as integer division, clamped
to `[3000, 50000]`. -/
def radiusSpec (m : ℤ) : ℤ := max 3000 (min 50000 (40 * m * 1000 / 60))

lemma pyInt_of_nonneg (q : ℚ) (h : 0 ≤ q) : pyInt q = ⌊q⌋ := if_pos h

lemma usableMinutes_nonneg (leave ret L : ℤ) : 0 ≤ usableMinutes leave ret L :=
  le_max_left 0 _

lemma hardCap_eq_spec (leave ret L : ℤ) :
    pyInt ((usableMinutes leave ret L : ℚ) * (45 / 100)) = hardCapSpec leave ret L := by
  have hu : (0 : ℚ) ≤ (usableMinutes leave ret L : ℚ) := by
    exact_mod_cast usableMinutes_nonneg leave ret L
  rw [pyInt_of_nonneg _ (by positivity)]
  have harg : (usableMinutes leave ret L : ℚ) * (45 / 100) =
      ((usableMinutes leave ret L * 45 : ℤ) : ℚ) / ((100 : ℕ) : ℚ) := by
    push_cast; ring
  rw [harg, Rat.floor_intCast_div_natCast]
  rfl

lemma bucketOf_eq_spec (L : ℤ) : bucketOf L = bucketSpec L := by
  have key : ∀ c : ℤ, ((L : ℚ) / 60 < (c : ℚ)) ↔ L < 60 * c := by
    intro c
    rw [div_lt_iff₀ (by norm_num : (0 : ℚ) < 60)]
    constructor
    · intro h
      have : (L : ℚ) < ((60 * c : ℤ) : ℚ) := by push_cast; linarith
      exact_mod_cast this
    · intro h
      have : (L : ℚ) < ((60 * c : ℤ) : ℚ) := by exact_mod_cast h
      push_cast at this; linarith
  have k3 := key 3; have k5 := key 5; have k7 := key 7
  have k9 := key 9; have k12 := key 12; have k14 := key 14
  norm_num at k3 k5 k7 k9 k12 k14
  simp only [bucketOf, bucketSpec, k3, k5, k7, k9, k12, k14]

lemma allowed_eq_spec (leave ret L : ℤ) :
    allowed_one_way_minutes leave ret L = allowanceSpec leave ret L := by
  simp only [allowed_one_way_minutes, allowanceSpec]
  rw [hardCap_eq_spec, bucketOf_eq_spec]

lemma bucketSpec_mono {L₁ L₂ : ℤ} (h : L₁ ≤ L₂) : bucketSpec L₁ ≤ bucketSpec L₂ := by
  unfold bucketSpec
  split_ifs <;> omega

lemma hardCapSpec_mono (leave ret : ℤ) {L₁ L₂ : ℤ} (h : L₁ ≤ L₂) :
    hardCapSpec leave ret L₁ ≤ hardCapSpec leave ret L₂ := by
  have hu : usableMinutes leave ret L₁ ≤ usableMinutes leave ret L₂ :=
    max_le_max le_rfl (by omega)
  unfold hardCapSpec
  omega

lemma allowanceSpec_nonneg (leave ret L : ℤ) : 0 ≤ allowanceSpec leave ret L := by
  unfold allowanceSpec
  split_ifs
  · exact le_rfl
  · exact le_trans (by norm_num) (le_max_left 10 _)

lemma allowanceSpec_mono (leave ret : ℤ) {L₁ L₂ : ℤ} (h : L₁ ≤ L₂) :
    allowanceSpec leave ret L₁ ≤ allowanceSpec leave ret L₂ := by
  have hb := bucketSpec_mono h
  have hc := hardCapSpec_mono leave ret h
  unfold allowanceSpec
  split_ifs with h₁ h₂
  · exact le_rfl
  · exact le_trans (by norm_num) (le_max_left 10 _)
  · omega
  · exact max_le_max le_rfl (min_le_min hb hc)

lemma allowanceSpec_le_cap (leave ret L : ℤ) :
    allowanceSpec leave ret L ≤ max 10 (hardCapSpec leave ret L) := by
  unfold allowanceSpec
  split_ifs with h
  · exact le_trans (by norm_num) (le_max_left 10 _)
  · exact max_le_max le_rfl (min_le_right _ _)

/-- C1: the one-way allowance of `_allowed_one_way_minutes` equals the spec's
description for every layover length and buffers — usable = max(0, L - leave - ret),
bucket from the strict-upper step table on layover hours, hard cap
floor(usable * 0.45), allowance 0 when the cap is non-positive and
max(10, min(bucket, hardCap)) otherwise; a layover of exactly 3.0h takes the
5h bucket (20), and L = 360 with buffers 45/90 gives usable 225, bucket 35,
hard cap 101 and allowance 35. -/
theorem C1_allowance_formula :
    (∀ leave ret L : ℤ, allowed_one_way_minutes leave ret L = allowanceSpec leave ret L)
    ∧ bucketOf 180 = 20
    ∧ usableMinutes 45 90 360 = 225
    ∧ bucketOf 360 = 35
    ∧ hardCapSpec 45 90 360 = 101
    ∧ allowed_one_way_minutes 45 90 360 = 35 := by
  refine ⟨allowed_eq_spec, ?_, ?_, ?_, ?_, ?_⟩
  · rw [bucketOf_eq_spec]; decide
  · decide
  · rw [bucketOf_eq_spec]; decide
  · decide
  · rw [allowed_eq_spec]; decide

/-- C3 counterexample: with buffers 45/90 and a layover of 145 minutes, the
usable window is 10 minutes, the allowance is 10, and 10 is NOT ≤ 45% of the
usable minutes (4.5) — the claimed upper bound fails. -/
theorem C3_counterexample :
    allowed_one_way_minutes 45 90 145 = 10
    ∧ usableMinutes 45 90 145 = 10
    ∧ ¬ ((allowed_one_way_minutes 45 90 145 : ℚ) ≤
          (45 / 100) * (usableMinutes 45 90 145 : ℚ)) := by
  have h1 : allowed_one_way_minutes 45 90 145 = 10 := by
    rw [allowed_eq_spec]; decide
  have h2 : usableMinutes 45 90 145 = 10 := by decide
  refine ⟨h1, h2, ?_⟩
  rw [h1, h2]
  norm_num

/-- C3 (amended): for fixed buffers the allowance is monotone non-decreasing in
the layover length and non-negative, and it is bounded by
max(10, floor(0.45 * usable)) — not by floor(0.45 * usable) alone, since the
`max(10, ...)` lower clamp can exceed the 45% cap when the cap is between 1
and 9. -/
theorem C3_allowance_monotone_bounded (leave ret L₁ L₂ : ℤ) (h : L₁ ≤ L₂) :
    allowed_one_way_minutes leave ret L₁ ≤ allowed_one_way_minutes leave ret L₂
    ∧ 0 ≤ allowed_one_way_minutes leave ret L₁
    ∧ allowed_one_way_minutes leave ret L₁ ≤ max 10 (hardCapSpec leave ret L₁) := by
  rw [allowed_eq_spec, allowed_eq_spec]
  exact ⟨allowanceSpec_mono leave ret h, allowanceSpec_nonneg leave ret L₁,
    allowanceSpec_le_cap leave ret L₁⟩

/-- C3 witness: the amended statement instantiated at buffers 45/90 and
layovers 300 ≤ 360. -/
theorem C3_allowance_monotone_bounded_witness :
    allowed_one_way_minutes 45 90 300 ≤ allowed_one_way_minutes 45 90 360
    ∧ 0 ≤ allowed_one_way_minutes 45 90 300
    ∧ allowed_one_way_minutes 45 90 300 ≤ max 10 (hardCapSpec 45 90 300) :=
  C3_allowance_monotone_bounded 45 90 300 360 (by decide)

lemma radius_eq_spec (m : ℤ) : radius_from_one_way 40 m = radiusSpec m := by
  simp only [radius_from_one_way, radiusSpec]
  have harg : ((40 : ℤ) : ℚ) * ((m : ℚ) / 60) * 1000 =
      ((40 * m * 1000 : ℤ) : ℚ) / ((60 : ℕ) : ℚ) := by
    push_cast; ring
  rcases le_or_lt 0 m with hm | hm
  · rw [pyInt_of_nonneg _ (by rw [harg]; positivity), harg,
      Rat.floor_intCast_div_natCast]
    norm_num
  · have hneg : ((40 : ℤ) : ℚ) * ((m : ℚ) / 60) * 1000 < 0 := by
      rw [harg]
      apply div_neg_of_neg_of_pos
      · exact_mod_cast (by nlinarith : (40 * m * 1000 : ℤ) < 0)
      · norm_num
    have hpy : pyInt (((40 : ℤ) : ℚ) * ((m : ℚ) / 60) * 1000) ≤ 0 := by
      unfold pyInt
      rw [if_neg (not_le.mpr hneg)]
      exact Int.ceil_le.mpr (by exact_mod_cast le_of_lt hneg)
    omega

/-- C4: for every one-way allowance m, the search radius equals
int(40 * (m / 60) * 1000) clamped into [3000, 50000]; it always lies inside
that interval, and a zero allowance yields the minimum clamp 3000. -/
theorem C4_radius_formula_and_bounds :
    (∀ m : ℤ, radius_from_one_way 40 m = radiusSpec m)
    ∧ (∀ m : ℤ, 3000 ≤ radius_from_one_way 40 m ∧ radius_from_one_way 40 m ≤ 50000)
    ∧ radius_from_one_way 40 0 = 3000 := by
  refine ⟨radius_eq_spec, ?_, ?_⟩
  · intro m
    rw [radius_eq_spec]
    unfold radiusSpec
    constructor
    · exact le_max_left 3000 _
    · exact max_le (by norm_num) (min_le_left _ _)
  · rw [radius_eq_spec]; decide

/-! Place records. The shape below is the output of
`MapsService._normalize_place_lite` (maps_service.py lines 97-109): every key
is always present, with `none` standing for a JSON null value, plus the
`_travel` annotation key added later by `attach_travel_times`.
`geometry_location` models `p.get("geometry").get("location")` for raw
(unnormalized) places; a missing or falsy geometry/location dict is `none`. -/

/-- A latitude/longitude dict, each coordinate possibly null. -/
structure PLatLng where
  lat : Option ℚ
  lng : Option ℚ
deriving DecidableEq

/-- The `_travel` annotation `duration_min, distance_km` attached by
`MapsService.attach_travel_times` (maps_service.py lines 388-391). -/
structure Travel where
  duration_min : Option ℤ
  distance_km : Option ℚ
deriving DecidableEq

/-- A place record as it flows through the candidate pipeline. -/
structure Place where
  place_id : Option String
  name : Option String
  rating : Option ℚ
  user_ratings_total : Option ℤ
  types : List String
  location : Option PLatLng
  geometry_location : Option PLatLng
  travel : Option Travel
deriving DecidableEq

/-- `(p.get("_travel") or ()).get("duration_min")` from `build_context`
(layover_planner.py line 110): null or absent `_travel` and a null
`duration_min` both give null. -/
def travelDurOf (p : Place) : Option ℤ := p.travel.bind Travel.duration_min

/-- The reachability filter of `build_context` (layover_planner.py lines
108-114): keep `p` iff its annotated duration is non-null and `t <= max_one_way`. -/
def filterReachable (maxOneWay : ℤ) (enriched : List Place) : List Place :=
  enriched.filter fun p =>
    match travelDurOf p with
    | some t => decide (t ≤ maxOneWay)
    | none => false

/-- First component of the sort key `pri` (layover_planner.py line 117):
`p.get("rating", 0)`. On normalized places the key is always present, so the
Python value is the stored one — a number, or None for a null rating. A null
is embedded as bottom; NOTE the source would raise a TypeError when Python
compares None with a number, so theorems about the sort order carry a
no-null-ratings hypothesis. -/
def ratingKey (p : Place) : WithBot ℚ :=
  match p.rating with
  | some q => (q : WithBot ℚ)
  | none => ⊥

/-- Second component of `pri` (layover_planner.py line 118):
`p.get("user_ratings_total", 0)`, same null convention as `ratingKey`. -/
def countKey (p : Place) : WithBot ℤ :=
  match p.user_ratings_total with
  | some n => (n : WithBot ℤ)
  | none => ⊥

/-- Third component of `pri` (layover_planner.py line 119):
`dist = (p.get("_travel") or ()).get("duration_min") or 999` — Python `or`
replaces both a null AND a zero duration (0 is falsy) by 999. -/
def distKey (p : Place) : ℤ :=
  match travelDurOf p with
  | some d => if d = 0 then 999 else d
  | none => 999

/-- The sort key tuple `(rating, cnt, -dist)` of `pri` (layover_planner.py
lines 116-120), ordered lexicographically as Python orders tuples. -/
def pri (p : Place) : (WithBot ℚ) ×ₗ ((WithBot ℤ) ×ₗ ℤ) :=
  toLex (ratingKey p, toLex (countKey p, -(distKey p)))

/-- The ordering of `filtered.sort(key=pri, reverse=True)` (layover_planner.py
line 122): `p` may come before `q` iff `pri q <= pri p` (descending, stable). -/
def priDesc (p q : Place) : Prop := pri q ≤ pri p

instance : DecidableRel priDesc :=
  fun p q => inferInstanceAs (Decidable (pri q ≤ pri p))

instance : IsTotal Place priDesc :=
  ⟨fun p q => (le_total (pri q) (pri p)).imp id id⟩

instance : IsTrans Place priDesc :=
  ⟨fun _ _ _ h₁ h₂ => le_trans h₂ h₁⟩

/-- The candidate list of `build_context` (layover_planner.py lines 108-122 and
160): reachability filter, stable descending sort by `pri`, truncation to 30.
Python's stable `list.sort(key=pri, reverse=True)` is modeled by the stable
`insertionSort` under `priDesc`; both are stable sorts of the same list under
the same total preorder, hence produce the same output. -/
def rankedCandidates (maxOneWay : ℤ) (enriched : List Place) : List Place :=
  (List.insertionSort priDesc (filterReachable maxOneWay enriched)).take 30

lemma reachable_pred_iff (m : ℤ) (p : Place) :
    (match travelDurOf p with
      | some t => decide (t ≤ m)
      | none => false) = true ↔ ∃ t, travelDurOf p = some t ∧ t ≤ m := by
  cases h : travelDurOf p <;> simp [h]

lemma mem_filterReachable {m : ℤ} {p : Place} {l : List Place} :
    p ∈ filterReachable m l ↔ p ∈ l ∧ ∃ t, travelDurOf p = some t ∧ t ≤ m := by
  unfold filterReachable
  rw [List.mem_filter, reachable_pred_iff]

lemma mem_rankedCandidates {m : ℤ} {p : Place} {l : List Place}
    (hp : p ∈ rankedCandidates m l) :
    p ∈ l ∧ ∃ t, travelDurOf p = some t ∧ t ≤ m := by
  unfold rankedCandidates at hp
  have h₁ : p ∈ List.insertionSort priDesc (filterReachable m l) :=
    List.mem_of_mem_take hp
  have h₂ : p ∈ filterReachable m l :=
    (List.perm_insertionSort priDesc _).mem_iff.mp h₁
  exact mem_filterReachable.mp h₂

lemma rankedCandidates_sorted (m : ℤ) (l : List Place) :
    List.Sorted priDesc (rankedCandidates m l) :=
  (List.sorted_insertionSort priDesc _).sublist (List.take_sublist 30 _)

lemma rankedCandidates_length (m : ℤ) (l : List Place) :
    (rankedCandidates m l).length ≤ 30 := by
  unfold rankedCandidates
  rw [List.length_take]
  exact min_le_left 30 _

/-- The spec-side ranking key of C2's words: (rating, review count, negative
travel duration), with missing rating / review count treated as zero. -/
def specKey (p : Place) : ℚ ×ₗ (ℤ ×ₗ ℤ) :=
  toLex (p.rating.getD 0, toLex (p.user_ratings_total.getD 0, -((travelDurOf p).getD 0)))

/-- Sample place: rated 4 with 10 reviews, annotated travel duration 0 min. -/
def pA : Place :=
  ⟨some "a", some "A", some 4, some 10, [], none, none, some ⟨some 0, none⟩⟩

/-- Sample place: rated 4 with 10 reviews, annotated travel duration 5 min. -/
def pB : Place :=
  ⟨some "b", some "B", some 4, some 10, [], none, none, some ⟨some 5, none⟩⟩

/-- C2 counterexample: both sample places are retained at allowance 35, but the
code orders the 5-minute place BEFORE the 0-minute place (a zero duration is
falsy in Python, so `or 999` turns it into distance 999), while the claim's
key (rating, review count, negative travel duration) demands the converse:
the claimed descending order would need specKey pA ≤ specKey pB, which fails. -/
theorem C2_counterexample :
    rankedCandidates 35 [pA, pB] = [pB, pA] ∧ ¬ specKey pA ≤ specKey pB := by
  constructor
  · rfl
  · decide

/-- C2 (amended): every candidate in the final list comes from the enriched
input and carries a travel annotation with duration ≤ the allowance
(unannotated places are dropped); the list has at most 30 entries; and — for
inputs whose rating and review-count values are all non-null, the only case
the Python comparison defines — it is ordered descending by the key
(rating, review count, -d) where d is the annotated duration EXCEPT that a
zero duration is keyed as 999; null rating or review-count values are passed
through as nulls, not zeros (Python raises a TypeError when it compares such
a key against a numeric one). -/
theorem C2_candidate_selection (m : ℤ) (l : List Place)
    (_hnull : ∀ p ∈ l, p.rating ≠ none ∧ p.user_ratings_total ≠ none) :
    (∀ p ∈ rankedCandidates m l, p ∈ l ∧ ∃ t, travelDurOf p = some t ∧ t ≤ m)
    ∧ (rankedCandidates m l).length ≤ 30
    ∧ List.Sorted priDesc (rankedCandidates m l) := by
  refine ⟨fun p hp => mem_rankedCandidates hp, rankedCandidates_length m l,
    rankedCandidates_sorted m l⟩

/-- C2 witness: the amended statement instantiated at allowance 35 and the
two sample places. -/
theorem C2_candidate_selection_witness :
    (∀ p ∈ rankedCandidates 35 [pA, pB],
        p ∈ [pA, pB] ∧ ∃ t, travelDurOf p = some t ∧ t ≤ 35)
    ∧ (rankedCandidates 35 [pA, pB]).length ≤ 30
    ∧ List.Sorted priDesc (rankedCandidates 35 [pA, pB]) :=
  C2_candidate_selection 35 [pA, pB] (by decide)

/-- Sample place annotated with a zero travel duration. -/
def pZero : Place :=
  ⟨some "z", some "Z", some 4, some 1, [], none, none, some ⟨some 0, none⟩⟩

/-- C5 counterexample: with buffers 45/90 and a 60-minute layover the allowance
is 0, yet the candidate list built from an enriched place with a 0-minute
annotation is NOT empty (and discovery is not skipped: `build_context` has no
zero-allowance branch and unconditionally calls discovery, lines 96-106). -/
theorem C5_counterexample :
    allowed_one_way_minutes 45 90 60 = 0
    ∧ rankedCandidates (allowed_one_way_minutes 45 90 60) [pZero] = [pZero] := by
  have h : allowed_one_way_minutes 45 90 60 = 0 := by
    rw [allowed_eq_spec]; decide
  refine ⟨h, ?_⟩
  rw [h]
  rfl

/-- C5 (amended): a non-positive hard cap makes the allowance exactly 0; the
pipeline then still runs — the radius collapses to the 3000 m minimum clamp
and every candidate that survives the filter has annotated travel duration
≤ 0 — and no step of the context computation fails: a zero allowance is an
ordinary value, not an error. -/
theorem C5_zero_allowance_degrades (leave ret L : ℤ) (enriched : List Place)
    (h : hardCapSpec leave ret L ≤ 0) :
    allowed_one_way_minutes leave ret L = 0
    ∧ radius_from_one_way 40 (allowed_one_way_minutes leave ret L) = 3000
    ∧ ∀ p ∈ rankedCandidates (allowed_one_way_minutes leave ret L) enriched,
        ∃ t, travelDurOf p = some t ∧ t ≤ 0 := by
  have h0 : allowed_one_way_minutes leave ret L = 0 := by
    rw [allowed_eq_spec]
    unfold allowanceSpec
    rw [if_pos h]
  refine ⟨h0, ?_, ?_⟩
  · rw [h0, radius_eq_spec]; decide
  · rw [h0]
    intro p hp
    exact (mem_rankedCandidates hp).2

/-- C5 witness: the amended statement at buffers 45/90, a 60-minute layover
and the single zero-duration sample place. -/
theorem C5_zero_allowance_degrades_witness :
    allowed_one_way_minutes 45 90 60 = 0
    ∧ radius_from_one_way 40 (allowed_one_way_minutes 45 90 60) = 3000
    ∧ ∀ p ∈ rankedCandidates (allowed_one_way_minutes 45 90 60) [pZero],
        ∃ t, travelDurOf p = some t ∧ t ≤ 0 :=
  C5_zero_allowance_degrades 45 90 60 [pZero] (by decide)

/-! Deduplication, `MapsService._dedupe_by_place_id` (maps_service.py lines
86-95). The records it inspects carry a `place_id` key and possibly a nested
`place` dict with its own `place_id`; everything else in the record is opaque
payload. -/

/-- A record as seen by `_dedupe_by_place_id`: its own `place_id`, the
`place_id` of a nested `place` dict when one exists, and opaque payload
standing for the rest of the record. -/
structure DedupeItem where
  place_id : Option String
  place_place_id : Option String
  payload : ℕ
deriving DecidableEq

/-- `pid = it.get("place_id") or it.get("place", ()).get("place_id")` followed
by the `if not pid` guard: Python's `or` skips a null or empty-string
`place_id`, and a null or empty final pid means the record is dropped, which
this embedding folds into returning `none`. -/
def pidOf (it : DedupeItem) : Option String :=
  let fb : Option String :=
    match it.place_place_id with
    | some s => if s = "" then none else some s
    | none => none
  match it.place_id with
  | some s => if s = "" then fb else some s
  | none => fb

/-- The loop of `_dedupe_by_place_id` with its `seen` set made explicit. -/
def dedupeAux (seen : List String) : List DedupeItem → List DedupeItem
  | [] => []
  | it :: rest =>
    match pidOf it with
    | none => dedupeAux seen rest
    | some pid =>
      if pid ∈ seen then dedupeAux seen rest
      else it :: dedupeAux (pid :: seen) rest

/-- `MapsService._dedupe_by_place_id` (maps_service.py lines 86-95). -/
def dedupe_by_place_id (items : List DedupeItem) : List DedupeItem :=
  dedupeAux [] items

lemma dedupeAux_sublist (seen : List String) (items : List DedupeItem) :
    List.Sublist (dedupeAux seen items) items := by
  induction items generalizing seen with
  | nil => exact List.Sublist.slnil
  | cons it rest ih =>
    cases hp : pidOf it with
    | none =>
      simp only [dedupeAux, hp]
      exact (ih seen).cons it
    | some pid =>
      by_cases hseen : pid ∈ seen
      · simp only [dedupeAux, hp, if_pos hseen]
        exact (ih seen).cons it
      · simp only [dedupeAux, hp, if_neg hseen]
        exact (ih (pid :: seen)).cons₂ it

lemma dedupeAux_filter (s : String) (items : List DedupeItem) (seen : List String) :
    (dedupeAux seen items).filter (fun it => decide (pidOf it = some s)) =
      if s ∈ seen then []
      else (items.filter (fun it => decide (pidOf it = some s))).take 1 := by
  induction items generalizing seen with
  | nil => simp [dedupeAux]
  | cons it rest ih =>
    cases hp : pidOf it with
    | none =>
      have hfil : List.filter (fun x => decide (pidOf x = some s)) (it :: rest)
          = List.filter (fun x => decide (pidOf x = some s)) rest := by
        simp [hp]
      simp only [dedupeAux, hp]
      rw [ih seen, hfil]
    | some pid =>
      by_cases hps : pid = s
      · subst hps
        have hfil : List.filter (fun x => decide (pidOf x = some pid)) (it :: rest)
            = it :: List.filter (fun x => decide (pidOf x = some pid)) rest := by
          simp [hp]
        by_cases hseen : pid ∈ seen
        · simp only [dedupeAux, hp, if_pos hseen]
          rw [ih seen, if_pos hseen]
        · simp only [dedupeAux, hp, if_neg hseen]
          have hfil2 : List.filter (fun x => decide (pidOf x = some pid))
                (it :: dedupeAux (pid :: seen) rest)
              = it :: List.filter (fun x => decide (pidOf x = some pid))
                  (dedupeAux (pid :: seen) rest) := by
            simp [hp]
          rw [hfil2, ih (pid :: seen), if_pos (List.mem_cons_self pid seen), hfil]
          simp
      · have hfil : List.filter (fun x => decide (pidOf x = some s)) (it :: rest)
            = List.filter (fun x => decide (pidOf x = some s)) rest := by
          simp [hp, hps]
        by_cases hseen : pid ∈ seen
        · simp only [dedupeAux, hp, if_pos hseen]
          rw [ih seen, hfil]
        · simp only [dedupeAux, hp, if_neg hseen]
          have hfil2 : List.filter (fun x => decide (pidOf x = some s))
                (it :: dedupeAux (pid :: seen) rest)
              = List.filter (fun x => decide (pidOf x = some s))
                  (dedupeAux (pid :: seen) rest) := by
            simp [hp, hps]
          rw [hfil2, ih (pid :: seen), hfil]
          have hmem : (s ∈ pid :: seen) ↔ (s ∈ seen) := by
            constructor
            · intro h
              rcases List.mem_cons.mp h with h | h
              · exact absurd h.symm hps
              · exact h
            · exact fun h => List.mem_cons_of_mem pid h
          rw [if_congr hmem rfl rfl]

/-- C8: deduplication keeps each (non-empty) place identifier exactly once,
retaining the first record of the input that carries it — for every
identifier `s`, the output records whose pid is `s` are exactly the first
input record whose pid is `s` — and the output is a sublist of the input
(no reordering, no invented records). -/
theorem C8_dedupe_first_occurrence_wins :
    ∀ (items : List DedupeItem) (s : String),
      List.Sublist (dedupe_by_place_id items) items
      ∧ (dedupe_by_place_id items).filter (fun it => decide (pidOf it = some s)) =
          (items.filter (fun it => decide (pidOf it = some s))).take 1 := by
  intro items s
  refine ⟨dedupeAux_sublist [] items, ?_⟩
  unfold dedupe_by_place_id
  rw [dedupeAux_filter s items []]
  simp

/-! `MapsService.attach_travel_times` (maps_service.py lines 346-395): the
distance-matrix service is an oracle `dm` mapping a destination batch to the
element list of the response's first row. The embedding also returns the list
of destination batches passed to `dm`, so that the batching behaviour is
itself a statable fact. It models the executions in which the service
returns at most one element per destination sent (on longer element lists
the Python code raises an IndexError at `idx_map[k]`). -/

/-- `MapsService.DM_CHUNK` (maps_service.py line 23). -/
def DM_CHUNK : ℕ := 25

/-- One element of a distance-matrix row: its `status` string and the
`value` fields (seconds / meters) of its `duration_in_traffic`, `duration`
and `distance` dicts; `none` stands for an absent (or falsy empty) dict. -/
structure DMElement where
  status : String
  duration_in_traffic : Option ℤ
  duration : Option ℤ
  distance : Option ℤ
deriving DecidableEq

/-- Python's `round(q)`: round half to even (banker's rounding). -/
def pyRound (q : ℚ) : ℤ :=
  let f := ⌊q⌋
  let r := q - (f : ℚ)
  if r < 1 / 2 then f
  else if 1 / 2 < r then f + 1
  else if f % 2 = 0 then f else f + 1

/-- `int(round(dur_value / 60))` (maps_service.py line 389). -/
def durationMinOf (v : ℤ) : ℤ := pyRound ((v : ℚ) / 60)

/-- `round(dist_value / 1000, 1)` (maps_service.py line 390), modeled as exact
rational rounding to one decimal; Python's float `round(x, 1)` can differ at
exact .x5 ties, which never changes any claim proved here. -/
def distanceKmOf (v : ℤ) : ℚ := (pyRound ((v : ℚ) / 1000 * 10) : ℚ) / 10

/-- The `_travel` value built for one OK element (maps_service.py lines
386-391): `dur = el.get("duration_in_traffic") or el.get("duration")`,
with null propagated when both are missing. -/
def travelOf (el : DMElement) : Travel :=
  { duration_min := (el.duration_in_traffic.or el.duration).map durationMinOf
    distance_km := el.distance.map distanceKmOf }

/-- Destination extraction per place (maps_service.py lines 362-368):
`loc = (p.get("geometry") or ()).get("location") or p.get("location")`,
then skip the place when `lat` or `lng` is null. -/
def latlngOf (p : Place) : Option (ℚ × ℚ) :=
  match p.geometry_location.or p.location with
  | none => none
  | some ll =>
    match ll.lat, ll.lng with
    | some a, some b => some (a, b)
    | _, _ => none

/-- The `dests` / `idx_map` pair of one batch (maps_service.py lines 360-370):
positions in the batch that have coordinates, with those coordinates. -/
def destIdx (batch : List Place) : List (ℕ × (ℚ × ℚ)) :=
  batch.enum.filterMap fun ji => (latlngOf ji.2).map fun c => (ji.1, c)

/-- Write the `_travel` key of the place at position `j` (the dict mutation
`batch(idx_map(k))("_travel") = travel` of maps_service.py line 393). -/
def setTravel : List Place → ℕ → Travel → List Place
  | [], _, _ => []
  | p :: ps, 0, tr => { p with travel := some tr } :: ps
  | p :: ps, j + 1, tr => p :: setTravel ps j tr

/-- One step of the annotation loop (maps_service.py lines 383-393): skip the
element unless its status is OK, otherwise write the travel annotation at the
element's mapped batch position. -/
def annotStep (acc : List Place) (je : ℕ × DMElement) : List Place :=
  if je.2.status = "OK" then setTravel acc je.1 (travelOf je.2) else acc

/-- The annotation loop over one batch: `for k, el in enumerate(elements)`
paired with `idx_map(k)`. -/
def annotateBatch (batch : List Place) (idx : List ℕ) (elements : List DMElement) :
    List Place :=
  (idx.zip elements).foldl annotStep batch

/-- Fuel-indexed chunking (fuel bounds the number of chunks by the list
length, making the definition structural). -/
def dmChunksAux {α : Type} : ℕ → List α → List (List α)
  | 0, _ => []
  | _ + 1, [] => []
  | f + 1, x :: xs => (x :: xs).take DM_CHUNK :: dmChunksAux f ((x :: xs).drop DM_CHUNK)

/-- The slices `places(i : i + DM_CHUNK)` of the loop
`for i in range(0, len(places), DM_CHUNK)` (maps_service.py line 357). -/
def dmChunks {α : Type} (l : List α) : List (List α) := dmChunksAux l.length l

/-- Process one batch (maps_service.py lines 357-393): collect destinations,
skip the distance-matrix call entirely when there are none (`if not dests:
continue`), otherwise call the oracle once and annotate. Returns the updated
batch and the destination batches sent. -/
def processBatch (dm : List (ℚ × ℚ) → List DMElement) (batch : List Place) :
    List Place × List (List (ℚ × ℚ)) :=
  let di := destIdx batch
  if di = [] then (batch, [])
  else
    let dests := di.map Prod.snd
    let elements := dm dests
    (annotateBatch batch (di.map Prod.fst) elements, [dests])

/-- `MapsService.attach_travel_times` (maps_service.py lines 346-395), paired
with the list of destination batches passed to the distance-matrix oracle. -/
def attach_travel_times (dm : List (ℚ × ℚ) → List DMElement) (places : List Place) :
    List Place × List (List (ℚ × ℚ)) :=
  let results := (dmChunks places).map (processBatch dm)
  ((results.map Prod.fst).join, (results.map Prod.snd).join)

/-- Erase the `_travel` key: two places agree under `eraseTravel` iff they
agree on every field other than `_travel`. -/
def eraseTravel (p : Place) : Place := { p with travel := none }

/-- The frame relation between an input place and its annotated output: all
fields other than `_travel` coincide, and `_travel` is either untouched or
has been set to an actual annotation. -/
def frameRel (p q : Place) : Prop :=
  eraseTravel q = eraseTravel p ∧ (q.travel = p.travel ∨ ∃ tr, q.travel = some tr)

lemma frameRel_refl (p : Place) : frameRel p p := ⟨rfl, Or.inl rfl⟩

lemma frameRel_trans {a b c : Place} (h₁ : frameRel a b) (h₂ : frameRel b c) :
    frameRel a c := by
  refine ⟨h₂.1.trans h₁.1, ?_⟩
  rcases h₂.2 with h | ⟨tr, htr⟩
  · rcases h₁.2 with h' | ⟨tr, htr⟩
    · exact Or.inl (h.trans h')
    · exact Or.inr ⟨tr, h.trans htr⟩
  · exact Or.inr ⟨tr, htr⟩

lemma forall₂_frame_refl (l : List Place) : List.Forall₂ frameRel l l := by
  induction l with
  | nil => exact List.Forall₂.nil
  | cons p ps ih => exact List.Forall₂.cons (frameRel_refl p) ih

lemma forall₂_frame_trans :
    ∀ {l₁ l₂ l₃ : List Place}, List.Forall₂ frameRel l₁ l₂ →
      List.Forall₂ frameRel l₂ l₃ → List.Forall₂ frameRel l₁ l₃ := by
  intro l₁ l₂ l₃ h₁ h₂
  induction h₁ generalizing l₃ with
  | nil => cases h₂; exact List.Forall₂.nil
  | cons hr _ ih =>
    cases h₂ with
    | cons hr' ht' => exact List.Forall₂.cons (frameRel_trans hr hr') (ih ht')

lemma setTravel_forall₂ : ∀ (l : List Place) (j : ℕ) (tr : Travel),
    List.Forall₂ frameRel l (setTravel l j tr) := by
  intro l
  induction l with
  | nil => intro j tr; exact List.Forall₂.nil
  | cons p ps ih =>
    intro j tr
    cases j with
    | zero =>
      exact List.Forall₂.cons ⟨rfl, Or.inr ⟨tr, rfl⟩⟩ (forall₂_frame_refl ps)
    | succ j => exact List.Forall₂.cons (frameRel_refl p) (ih j tr)

lemma foldl_annot_forall₂ (pairs : List (ℕ × DMElement)) :
    ∀ (acc : List Place), List.Forall₂ frameRel acc (pairs.foldl annotStep acc) := by
  induction pairs with
  | nil => intro acc; exact forall₂_frame_refl acc
  | cons pr rest ih =>
    intro acc
    rw [List.foldl_cons]
    refine forall₂_frame_trans ?_ (ih (annotStep acc pr))
    unfold annotStep
    split_ifs
    · exact setTravel_forall₂ acc pr.1 (travelOf pr.2)
    · exact forall₂_frame_refl acc

lemma annotateBatch_forall₂ (batch : List Place) (idx : List ℕ)
    (elements : List DMElement) :
    List.Forall₂ frameRel batch (annotateBatch batch idx elements) :=
  foldl_annot_forall₂ (idx.zip elements) batch

lemma processBatch_forall₂ (dm : List (ℚ × ℚ) → List DMElement) (batch : List Place) :
    List.Forall₂ frameRel batch (processBatch dm batch).1 := by
  simp only [processBatch]
  split
  · exact forall₂_frame_refl batch
  · exact annotateBatch_forall₂ batch _ _

lemma dmChunksAux_join {α : Type} :
    ∀ (f : ℕ) (l : List α), l.length ≤ f → (dmChunksAux f l).join = l := by
  intro f
  induction f with
  | zero =>
    intro l hl
    have : l = [] := List.length_eq_zero.mp (Nat.le_zero.mp hl)
    subst this
    rfl
  | succ f ih =>
    intro l hl
    cases l with
    | nil => rfl
    | cons x xs =>
      have hdrop : ((x :: xs).drop DM_CHUNK).length ≤ f := by
        rw [List.length_drop]
        simp only [List.length_cons] at hl ⊢
        unfold DM_CHUNK
        omega
      simp only [dmChunksAux, List.join_cons, ih _ hdrop, List.take_append_drop]

lemma dmChunks_join {α : Type} (l : List α) : (dmChunks l).join = l :=
  dmChunksAux_join l.length l le_rfl

lemma dmChunksAux_mem_length {α : Type} :
    ∀ (f : ℕ) (l : List α) (c : List α), c ∈ dmChunksAux f l → c.length ≤ DM_CHUNK := by
  intro f
  induction f with
  | zero => intro l c hc; simp [dmChunksAux] at hc
  | succ f ih =>
    intro l c hc
    cases l with
    | nil => simp [dmChunksAux] at hc
    | cons x xs =>
      simp only [dmChunksAux, List.mem_cons] at hc
      rcases hc with hc | hc
      · subst hc
        rw [List.length_take]
        exact min_le_left _ _
      · exact ih _ c hc

lemma join_forall₂_processed (dm : List (ℚ × ℚ) → List DMElement) :
    ∀ (chunks : List (List Place)),
      List.Forall₂ frameRel chunks.join
        ((chunks.map fun c => (processBatch dm c).1).join) := by
  intro chunks
  induction chunks with
  | nil => exact List.Forall₂.nil
  | cons c cs ih =>
    simp only [List.map_cons, List.join_cons]
    exact List.rel_append (processBatch_forall₂ dm c) ih

lemma attach_forall₂ (dm : List (ℚ × ℚ) → List DMElement) (places : List Place) :
    List.Forall₂ frameRel places (attach_travel_times dm places).1 := by
  have h := join_forall₂_processed dm (dmChunks places)
  rw [dmChunks_join] at h
  unfold attach_travel_times
  simpa [List.map_map, Function.comp] using h

lemma forall₂_frame_map_erase :
    ∀ {l₁ l₂ : List Place}, List.Forall₂ frameRel l₁ l₂ →
      l₂.map eraseTravel = l₁.map eraseTravel := by
  intro l₁ l₂ h
  induction h with
  | nil => rfl
  | cons hr _ ih => simp only [List.map_cons, hr.1, ih]

/-- C10: the annotator returns a list of the same length and order as its
input; pointwise, every field other than `_travel` is unchanged
(`eraseTravel` projections agree), and `_travel` is either untouched or set
to an annotation value — captured by the pointwise relation `frameRel`. -/
theorem C10_annotator_frame (dm : List (ℚ × ℚ) → List DMElement) (places : List Place) :
    ((attach_travel_times dm places).1).length = places.length
    ∧ ((attach_travel_times dm places).1).map eraseTravel = places.map eraseTravel
    ∧ List.Forall₂ frameRel places (attach_travel_times dm places).1 := by
  have h := attach_forall₂ dm places
  exact ⟨h.length_eq.symm, forall₂_frame_map_erase h, h⟩

lemma setTravel_getElem_ne :
    ∀ (l : List Place) (j : ℕ) (tr : Travel) (i : ℕ), i ≠ j →
      (setTravel l j tr)[i]? = l[i]? := by
  intro l
  induction l with
  | nil => intro j tr i _; cases j <;> rfl
  | cons p ps ih =>
    intro j tr i hij
    cases j with
    | zero =>
      cases i with
      | zero => exact absurd rfl hij
      | succ i => simp [setTravel]
    | succ j =>
      cases i with
      | zero => simp [setTravel]
      | succ i =>
        simp only [setTravel, List.getElem?_cons_succ]
        exact ih j tr i (fun h => hij (congrArg Nat.succ h))

lemma foldl_annot_getElem_no_ok (j : ℕ) :
    ∀ (pairs : List (ℕ × DMElement)) (acc : List Place),
      (∀ pr ∈ pairs, pr.1 = j → pr.2.status ≠ "OK") →
      (pairs.foldl annotStep acc)[j]? = acc[j]? := by
  intro pairs
  induction pairs with
  | nil => intro acc _; rfl
  | cons pr rest ih =>
    intro acc h
    rw [List.foldl_cons, ih _ (fun q hq => h q (List.mem_cons_of_mem pr hq))]
    unfold annotStep
    split_ifs with hok
    · have hne : pr.1 ≠ j := fun hj => h pr (List.mem_cons_self pr rest) hj hok
      exact setTravel_getElem_ne acc pr.1 (travelOf pr.2) j (Ne.symm hne)
    · rfl

/-- C6: (a) every destination batch passed to the distance-matrix oracle has
at most `DM_CHUNK = 25` entries; (b) an OK element's annotated duration comes
from the traffic-aware field when present, otherwise from the plain duration
field (null when both are missing); (c) a batch position none of whose
elements has status OK keeps its record — in particular it receives no
travel annotation. -/
theorem C6_batching_duration_and_status_gate :
    (∀ (dm : List (ℚ × ℚ) → List DMElement) (places : List Place),
      ∀ call ∈ (attach_travel_times dm places).2, call.length ≤ DM_CHUNK)
    ∧ DM_CHUNK = 25
    ∧ (∀ (el : DMElement) (v : ℤ), el.duration_in_traffic = some v →
        (travelOf el).duration_min = some (durationMinOf v))
    ∧ (∀ el : DMElement, el.duration_in_traffic = none →
        (travelOf el).duration_min = el.duration.map durationMinOf)
    ∧ (∀ (batch : List Place) (idx : List ℕ) (elements : List DMElement) (j : ℕ),
        (∀ pr ∈ idx.zip elements, pr.1 = j → pr.2.status ≠ "OK") →
        (annotateBatch batch idx elements)[j]? = batch[j]?) := by
  refine ⟨?_, rfl, ?_, ?_, ?_⟩
  · intro dm places call hcall
    unfold attach_travel_times at hcall
    simp only [List.mem_join, List.mem_map] at hcall
    obtain ⟨calls, ⟨res, hres, hcalls⟩, hmem⟩ := hcall
    obtain ⟨chunk, hchunk, hpb⟩ := hres
    subst hpb
    subst hcalls
    revert hmem
    simp only [processBatch]
    split
    · intro hmem; simp at hmem
    · intro hmem
      simp only [List.mem_singleton] at hmem
      subst hmem
      calc ((destIdx chunk).map Prod.snd).length
          = (destIdx chunk).length := List.length_map _ _
        _ ≤ chunk.enum.length := List.length_filterMap_le _ _
        _ = chunk.length := List.enum_length
        _ ≤ DM_CHUNK := dmChunksAux_mem_length _ places chunk hchunk
  · intro el v hv
    simp [travelOf, hv, Option.or]
  · intro el hv
    simp [travelOf, hv, Option.or]
  · intro batch idx elements j h
    exact foldl_annot_getElem_no_ok j (idx.zip elements) batch h

/-- Distance-matrix element with a traffic-aware duration of 540 seconds. -/
def elTraffic : DMElement := ⟨"OK", some 540, some 600, some 4000⟩

/-- Distance-matrix element whose status is not OK. -/
def elNotFound : DMElement := ⟨"NOT_FOUND", none, none, none⟩

/-- C6 witness: the traffic-aware duration (540 s, 9 min) wins over the plain
one for a concrete OK element, and a batch whose only element is non-OK keeps
its place unannotated. -/
theorem C6_batching_duration_and_status_gate_witness :
    (travelOf elTraffic).duration_min = some (durationMinOf 540)
    ∧ (annotateBatch [pZero] [0] [elNotFound])[0]? = (([pZero] : List Place))[0]? :=
  ⟨C6_batching_duration_and_status_gate.2.2.1 elTraffic 540 rfl,
    C6_batching_duration_and_status_gate.2.2.2.2 [pZero] [0] [elNotFound] 0 (by decide)⟩

/-! `LLMClient.generate_and_validate` (llm_client.py lines 38-57). Parsing
and validation against the pydantic model is the oracle `validate`; the
generation call produced the raw text `raw`. The second component of the
result records the strings handed to `validate`, in order. -/

/-- The backtick character stripped by `strip` with an explicit argument. -/
def fenceChar : Char := Char.ofNat 96

/-- Python's `s.strip(c)`: remove every leading and trailing occurrence of
the character `c`. -/
def stripChar (c : Char) (s : String) : String :=
  String.mk (((s.toList.dropWhile fun x => x = c).reverse.dropWhile fun x => x = c).reverse)

/-- `raw.strip().strip(backtick)` (llm_client.py line 56); `String.trim`
trims the ASCII whitespace Python's `strip()` removes (Python also strips a
few rarer whitespace code points, which no claim depends on). -/
def cleanupRaw (s : String) : String := stripChar fenceChar s.trim

/-- `LLMClient.generate_and_validate` (llm_client.py lines 48-57): first-pass
validation of the raw text; on failure one cleanup then a single re-parse
whose outcome — success or error — is returned as is. -/
def generate_and_validate {E P : Type} (validate : String → Except E P) (raw : String) :
    Except E P × List String :=
  match validate raw with
  | Except.ok p => (Except.ok p, [raw])
  | Except.error _ => (validate (cleanupRaw raw), [raw, cleanupRaw raw])

/-- C7: at most two validation attempts ever happen; an ok result always
comes from a successful validation of the raw or cleaned text (an invalid
generation is never returned as valid); a first-pass success returns
immediately; and after a first-pass failure the result is exactly the
outcome of the single re-parse of the cleaned text — a second failure
propagates, with no further retries. -/
theorem C7_single_cleanup_then_propagate (E P : Type)
    (validate : String → Except E P) (raw : String) :
    ((generate_and_validate validate raw).2).length ≤ 2
    ∧ (∀ p : P, (generate_and_validate validate raw).1 = Except.ok p →
        validate raw = Except.ok p ∨ validate (cleanupRaw raw) = Except.ok p)
    ∧ (∀ p : P, validate raw = Except.ok p →
        generate_and_validate validate raw = (Except.ok p, [raw]))
    ∧ (∀ e : E, validate raw = Except.error e →
        generate_and_validate validate raw =
          (validate (cleanupRaw raw), [raw, cleanupRaw raw])) := by
  refine ⟨?_, ?_, ?_, ?_⟩
  · cases h : validate raw <;> simp [generate_and_validate, h]
  · intro p hp
    cases h : validate raw with
    | ok q =>
      have hres : (generate_and_validate validate raw).1 = Except.ok q := by
        simp [generate_and_validate, h]
      rw [hres] at hp
      injection hp with hqp
      subst hqp
      exact Or.inl rfl
    | error e =>
      simp [generate_and_validate, h] at hp
      exact Or.inr hp
  · intro p hp
    simp [generate_and_validate, hp]
  · intro e he
    simp [generate_and_validate, he]

/-- A validation oracle that rejects every string. -/
def valAlwaysFail : String → Except ℕ ℕ := fun _ => Except.error 0

/-- C7 witness: with an always-failing validator the result is exactly the
re-parse outcome of the cleaned text, after the two recorded attempts. -/
theorem C7_single_cleanup_then_propagate_witness :
    generate_and_validate valAlwaysFail "x" =
      (valAlwaysFail (cleanupRaw "x"), ["x", cleanupRaw "x"]) :=
  (C7_single_cleanup_then_propagate ℕ ℕ valAlwaysFail "x").2.2.2 0 rfl

/-! The `LayoverPlan` data model (app/schemas/itinerary.py lines 62-171),
embedded with exactly the constraints pydantic enforces at validation time:
per-stop bounds on `id`, `title`, `description`, non-empty `tags`, and the
transport literal; no list-length constraint exists on `recommended_stops`
(or on `baggage_storage` / `local_insights`). -/

/-- `RecommendedStop` (itinerary.py lines 62-97). -/
structure RecommendedStop where
  id : ℤ
  title : String
  description : String
  tags : List String
  opening_hours : Option String
  duration_range : Option String
  cost : Option String
  transport : Option String
  options : List String
  notes : Option String
deriving DecidableEq

/-- The transport literal values (itinerary.py line 88). -/
def transportModes : List String := ["walk", "metro", "bus", "taxi", "rideshare"]

/-- `Optional(Literal(...))`: null is allowed, any present value must be one
of the five modes. -/
def transportOk : Option String → Prop
  | none => True
  | some t => t ∈ transportModes

instance : DecidablePred transportOk
  | none => Decidable.isTrue trivial
  | some t => inferInstanceAs (Decidable (t ∈ transportModes))

/-- The validation constraints pydantic imposes on one stop: `id >= 1`,
`3 <= len(title) <= 100`, `10 <= len(description) <= 500`, `len(tags) >= 1`,
and the transport literal (itinerary.py lines 67-97). -/
def stopValid (s : RecommendedStop) : Prop :=
  1 ≤ s.id
  ∧ 3 ≤ s.title.length ∧ s.title.length ≤ 100
  ∧ 10 ≤ s.description.length ∧ s.description.length ≤ 500
  ∧ 1 ≤ s.tags.length
  ∧ transportOk s.transport

instance : DecidablePred stopValid := fun s => by
  unfold stopValid
  infer_instance

/-- `LayoverMetadata` (itinerary.py lines 132-147): five required strings,
no value constraints. -/
structure LayoverMetadata where
  airport : String
  layover_duration : String
  safety_buffer : String
  must_return_by : String
  current_time : String
deriving DecidableEq

/-- `BaggageStorage` (itinerary.py lines 100-114): four strings, no value
constraints. -/
structure BaggageStorage where
  title : String
  location : String
  rate : String
  availability : String
deriving DecidableEq

/-- `LocalInsight` (itinerary.py lines 117-129): a title and a list of
strings, no value constraints. -/
structure LocalInsight where
  title : String
  content : List String
deriving DecidableEq

/-- `LayoverPlan` (itinerary.py lines 150-171). `recommended_stops` is a
plain `List(RecommendedStop)` — the model declares NO minimum or maximum
length for it. -/
structure LayoverPlan where
  metadata : LayoverMetadata
  recommended_stops : List RecommendedStop
  baggage_storage : List BaggageStorage
  local_insights : List LocalInsight
deriving DecidableEq

/-- A `LayoverPlan` validates iff every recommended stop satisfies the
per-stop constraints; no other field of the model carries a constraint. -/
def planValid (plan : LayoverPlan) : Prop :=
  ∀ s ∈ plan.recommended_stops, stopValid s

instance : DecidablePred planValid := fun plan =>
  List.decidableBAll stopValid plan.recommended_stops

/-- A stop satisfying every per-stop constraint (built from the field
defaults of itinerary.py). -/
def sampleStop : RecommendedStop :=
  ⟨1, "Sample Stop", "A short description of the recommended stop.", ["sightseeing"],
    some "09:00-21:00", some "45-90 min", some "Free", some "walk",
    ["Alternative option"], some "Best visited in the evening."⟩

/-- A plan with `n` copies of the sample stop. -/
def planWithStops (n : ℕ) : LayoverPlan :=
  ⟨⟨"RUH", "8h 30m", "exit 45m, return 90m", "18:00", "10:00"⟩,
    List.replicate n sampleStop, [], []⟩

/-- C9 counterexample: a plan with a single recommended stop validates
against the data model, so a validating `LayoverPlan` need not carry between
3 and 8 stops. -/
theorem C9_counterexample :
    planValid (planWithStops 1)
    ∧ (planWithStops 1).recommended_stops.length = 1
    ∧ ¬ 3 ≤ (planWithStops 1).recommended_stops.length := by
  refine ⟨?_, by decide, by decide⟩
  intro s hs
  have h : s = sampleStop := List.eq_of_mem_replicate hs
  subst h
  decide

/-- C9 (amended): the data model does not bound the number of recommended
stops — for every n, a plan with n valid stops validates; the 3-8 range of
the spec (and the 4-8 wording of the generation prompt) is prompt guidance
only, not a model invariant. -/
theorem C9_stop_count_unconstrained (n : ℕ) :
    planValid (planWithStops n)
    ∧ (planWithStops n).recommended_stops.length = n := by
  constructor
  · intro s hs
    have h : s = sampleStop := List.eq_of_mem_replicate hs
    subst h
    decide
  · simp [planWithStops]

end Layover
